import Mathlib

/-!
# Verification of the go-drift resilient HTTP retry subsystem

Shallow embedding of the retry subsystem of `go-drift`:

* `drift/resilient_client.go` — the `ResilientClient` executor (`Do`,
  `prepareRequest`, `waitForRetry`, `shouldRetry`, `sleep`, `cloneRequest`,
  `isRetryableError`, `isRetryableStatusCode`);
* the `ExponentialBackoff` strategy (`Next`).

Modelling conventions:

* `time.Duration` (an int64 count of nanoseconds) is modelled as `ℤ`.
* The `float64` arithmetic inside `ExponentialBackoff.Next` is idealised as
  exact rational arithmetic (`ℚ`); the Go conversion
  `time.Duration(baseDelay)` is truncation toward zero, modelled by
  `durOfRat` for in-range values.
* `rand.Int64N(n)` (a uniform draw from `[0, n)`) is modelled by reducing an
  abstract random source `rand : ℤ` modulo `n`; the set of possible results
  coincides with the set of possible results of the generator.
* A Go `error` value is abstracted to the tuple of observations that
  `isRetryableError` can make of it through `errors.Is` / `errors.As`
  (structure `GoErr`); `nil` errors are `Option.none`.
* The cancellation context is an oracle (`Ctx`) recording what `ctx.Err()`
  returns at the check opening each loop iteration, and whether the
  `select` inside `sleep` is won by `ctx.Done()` during the wait after a
  given attempt.  Wall-clock durations do not influence control flow.
* The transport (`rc.client.Do`) is an oracle `ℕ → Outcome` giving the
  response/error pair of the k-th transport call; the instrumented model of
  `Do` additionally returns the list of requests handed to the transport,
  so call counts are observable as list lengths.
-/

namespace Drift

/-- An HTTP response; only the status code is observed by the retry logic
(`resp.StatusCode` in `shouldRetry`). -/
structure Response where
  statusCode : ℤ
deriving Repr, DecidableEq

/-- Abstraction of a Go `error` value: the results of the probes that
`isRetryableError` performs on it.

* `isCanceled` / `isDeadlineExceeded` — `errors.Is(err, context.Canceled)` /
  `errors.Is(err, context.DeadlineExceeded)`;
* `netTimeout` — `some t` when `errors.As(err, &netErr)` succeeds and
  `netErr.Timeout() = t`, `none` when the `errors.As` fails;
* `isConnRefused` / `isConnReset` — `errors.Is` against `syscall.ECONNREFUSED`
  / `syscall.ECONNRESET`;
* `isEOF` / `isUnexpectedEOF` — `errors.Is` against `io.EOF` /
  `io.ErrUnexpectedEOF`;
* `dnsTemporary` — `some t` when `errors.As(err, &dnsErr)` succeeds and
  `dnsErr.Temporary() = t`, `none` when it fails. -/
structure GoErr where
  isCanceled : Bool
  isDeadlineExceeded : Bool
  netTimeout : Option Bool
  isConnRefused : Bool
  isConnReset : Bool
  isEOF : Bool
  isUnexpectedEOF : Bool
  dnsTemporary : Option Bool
deriving Repr, DecidableEq

/-- Function `isRetryableError` from `resilient_client.go`: transient-error
classification.  The checks are performed in source order; in particular the
cancellation / deadline check precedes the network-timeout check, and an
`errors.As`-matched network error whose `Timeout()` is false falls through to
the later checks. -/
def isRetryableError : Option GoErr → Bool
  | none => false
  | some e =>
    if e.isCanceled || e.isDeadlineExceeded then false
    else if e.netTimeout = some true then true
    else if e.isConnRefused then true
    else if e.isConnReset then true
    else if e.isEOF || e.isUnexpectedEOF then true
    else
      match e.dnsTemporary with
      | some temp => temp
      | none => false

/-- Function `isRetryableStatusCode` from `resilient_client.go`: retry on 408, 429 and
the 500–599 range, nothing else. -/
def isRetryableStatusCode (code : ℤ) : Bool :=
  if code = 408 then true
  else if code = 429 then true
  else decide (500 ≤ code ∧ code ≤ 599)

/-! ## Claims C4 and C5: the retry classifier -/

/-- Characterisation of `isRetryableError` used by several proofs: retryable
iff not (canceled or deadline-exceeded) and at least one transient condition
matches. -/
lemma isRetryableError_eq (e : GoErr) :
    isRetryableError (some e) =
      (!(e.isCanceled || e.isDeadlineExceeded) &&
        (e.netTimeout == some true || e.isConnRefused || e.isConnReset ||
          e.isEOF || e.isUnexpectedEOF || e.dnsTemporary == some true)) := by
  rcases e with ⟨c, d, nt, cr, cs, eo, ue, dt⟩
  cases c <;> cases d <;> cases cr <;> cases cs <;> cases eo <;> cases ue <;>
    rcases nt with _ | nt <;> rcases dt with _ | dt <;>
    first
      | rfl
      | (cases nt <;> first | rfl | (cases dt <;> rfl))
      | (cases dt <;> rfl)

/-- C4: for every integer status code, `isRetryableStatusCode` returns `true`
iff the code is 408, 429, or lies in 500–599, and returns `false` for every
other code (all other 4xx, 2xx, zero, negative codes); being a total Lean
function it never raises. -/
theorem isRetryableStatusCode_spec (code : ℤ) :
    isRetryableStatusCode code = true ↔
      (code = 408 ∨ code = 429 ∨ (500 ≤ code ∧ code ≤ 599)) := by
  unfold isRetryableStatusCode
  split_ifs with h1 h2 <;> simp_all

/-- C5: every error that is, or wraps, `context.Canceled` or
`context.DeadlineExceeded` classifies as not retryable, even when it also
exposes a timeout signal; and every error matching none of the listed
transient conditions (connection refused/reset, EOF / unexpected EOF,
timeout-flagged network error, temporary DNS error) classifies as not
retryable. -/
theorem isRetryableError_not_retryable_cases (e : GoErr) :
    ((e.isCanceled = true ∨ e.isDeadlineExceeded = true) →
        isRetryableError (some e) = false) ∧
    ((e.netTimeout ≠ some true ∧ e.isConnRefused = false ∧
        e.isConnReset = false ∧ e.isEOF = false ∧ e.isUnexpectedEOF = false ∧
        e.dnsTemporary ≠ some true) →
      isRetryableError (some e) = false) := by
  constructor
  · intro h
    rw [isRetryableError_eq]
    rcases h with h | h <;> simp [h]
  · rintro ⟨h1, h2, h3, h4, h5, h6⟩
    rw [isRetryableError_eq]
    rcases hnt : e.netTimeout with _ | nt <;> rcases hdt : e.dnsTemporary with _ | dt <;>
      simp_all

/-- Witness for C5: a canceled error that also reports a network timeout is
not retried, and an unknown error matching no transient condition is not
retried. -/
theorem isRetryableError_not_retryable_cases_witness :
    isRetryableError (some ⟨true, false, some true, false, false, false, false, none⟩) = false ∧
    isRetryableError (some ⟨false, false, some false, false, false, false, false, some false⟩) = false :=
  ⟨(isRetryableError_not_retryable_cases _).1 (Or.inl rfl),
   (isRetryableError_not_retryable_cases _).2
     ⟨by decide, rfl, rfl, rfl, rfl, by decide⟩⟩

/-! ## The exponential backoff strategy -/

/-- Truncation toward zero of a rational number: Go's `time.Duration(f)`
conversion from `float64`, for values representable in the duration's integer
range. -/
def durOfRat (q : ℚ) : ℤ := if q < 0 then ⌈q⌉ else ⌊q⌋

/-- Structure `ExponentialBackoff`: durations (`time.Duration`, an int64 nanosecond
count) are `ℤ`; the `float64` field `exponentFactor` is idealised as an exact
rational. -/
structure ExponentialBackoff where
  initialTimeout : ℤ
  maxTimeout : ℤ
  exponentFactor : ℚ
  maxJitter : ℤ
deriving Repr, DecidableEq

/-- Constructor `NewExponentialBackoff`. -/
def NewExponentialBackoff (initialTimeout maxTimeout : ℤ) (exponentFactor : ℚ)
    (maxJitter : ℤ) : ExponentialBackoff :=
  ⟨initialTimeout, maxTimeout, exponentFactor, maxJitter⟩

/-- The initial clamp in `Next`: `if attempt < 0 { attempt = 0 }`. -/
def clampAttempt (attempt : ℤ) : ℤ := if attempt < 0 then 0 else attempt

/-- The local `baseDelay := float64(e.initialTimeout) *
math.Pow(e.exponentFactor, float64(attempt))` of `Next`, in exact
arithmetic. -/
def ExponentialBackoff.baseDelay (e : ExponentialBackoff) (attempt : ℤ) : ℚ :=
  (e.initialTimeout : ℚ) * e.exponentFactor ^ (clampAttempt attempt).toNat

/-- The value of `baseDelay` after the cap
`if baseDelay > float64(e.maxTimeout) { baseDelay = float64(e.maxTimeout) }`. -/
def ExponentialBackoff.cappedDelay (e : ExponentialBackoff) (attempt : ℤ) : ℚ :=
  if (e.maxTimeout : ℚ) < e.baseDelay attempt then (e.maxTimeout : ℚ)
  else e.baseDelay attempt

/-- Method `ExponentialBackoff.Next`: convert the capped base delay to a duration
(`delay := time.Duration(baseDelay)`) and add jitter only when
`e.maxJitter > 0`.  `rand` is the abstract random source;
`rand.Int64N(int64(e.maxJitter) + 1)` is modelled as `rand % (e.maxJitter + 1)`,
whose range over all `rand` is exactly the range of the generator. -/
def ExponentialBackoff.Next (e : ExponentialBackoff) (attempt : ℤ) (rand : ℤ) : ℤ :=
  if 0 < e.maxJitter then
    durOfRat (e.cappedDelay attempt) + rand % (e.maxJitter + 1)
  else
    durOfRat (e.cappedDelay attempt)

lemma durOfRat_nonneg {q : ℚ} (h : 0 ≤ q) : 0 ≤ durOfRat q := by
  rw [durOfRat, if_neg (not_lt.mpr h)]
  exact Int.floor_nonneg.mpr h

lemma durOfRat_le_int {q : ℚ} {n : ℤ} (h : q ≤ (n : ℚ)) : durOfRat q ≤ n := by
  rw [durOfRat]
  split_ifs with hq
  · exact Int.ceil_le.mpr h
  · exact (Int.floor_mono h).trans_eq (Int.floor_intCast n)

lemma durOfRat_mono {q r : ℚ} (h : q ≤ r) : durOfRat q ≤ durOfRat r := by
  unfold durOfRat
  split_ifs with h1 h2 h2
  · exact Int.ceil_mono h
  · exact le_trans (Int.ceil_le.mpr (by exact_mod_cast h1.le))
      (Int.floor_nonneg.mpr (not_lt.mp h2))
  · exact absurd (h.trans_lt h2) (not_lt.mpr (not_lt.mp h1))
  · exact Int.floor_mono h

lemma baseDelay_nonneg (e : ExponentialBackoff) (attempt : ℤ)
    (hInit : 0 ≤ e.initialTimeout) (hFactor : 0 ≤ e.exponentFactor) :
    0 ≤ e.baseDelay attempt :=
  mul_nonneg (by exact_mod_cast hInit) (pow_nonneg hFactor _)

lemma cappedDelay_le (e : ExponentialBackoff) (attempt : ℤ) :
    e.cappedDelay attempt ≤ (e.maxTimeout : ℚ) := by
  unfold ExponentialBackoff.cappedDelay
  split_ifs with h
  · exact le_refl _
  · exact not_lt.mp h

lemma cappedDelay_nonneg (e : ExponentialBackoff) (attempt : ℤ)
    (hInit : 0 ≤ e.initialTimeout) (hMax : 0 ≤ e.maxTimeout)
    (hFactor : 0 ≤ e.exponentFactor) : 0 ≤ e.cappedDelay attempt := by
  unfold ExponentialBackoff.cappedDelay
  split_ifs
  · exact_mod_cast hMax
  · exact baseDelay_nonneg e attempt hInit hFactor

lemma cappedDelay_eq_min (e : ExponentialBackoff) (attempt : ℤ) :
    e.cappedDelay attempt = min (e.maxTimeout : ℚ) (e.baseDelay attempt) := by
  unfold ExponentialBackoff.cappedDelay
  split_ifs with h
  · exact (min_eq_left h.le).symm
  · exact (min_eq_right (not_lt.mp h)).symm

/-- C7: for non-negative `initialTimeout`, `maxTimeout`, `exponentFactor` and
`maxJitter`, `Next attempt rand` is non-negative and never exceeds
`maxTimeout + maxJitter`, for every attempt and every random draw. -/
theorem backoff_next_bounds (e : ExponentialBackoff) (attempt rand : ℤ)
    (hInit : 0 ≤ e.initialTimeout) (hMax : 0 ≤ e.maxTimeout)
    (hFactor : 0 ≤ e.exponentFactor) (hJitter : 0 ≤ e.maxJitter) :
    0 ≤ e.Next attempt rand ∧ e.Next attempt rand ≤ e.maxTimeout + e.maxJitter := by
  have hd0 : 0 ≤ durOfRat (e.cappedDelay attempt) :=
    durOfRat_nonneg (cappedDelay_nonneg e attempt hInit hMax hFactor)
  have hdle : durOfRat (e.cappedDelay attempt) ≤ e.maxTimeout :=
    durOfRat_le_int (cappedDelay_le e attempt)
  unfold ExponentialBackoff.Next
  split_ifs with hj
  · have hm0 : 0 ≤ rand % (e.maxJitter + 1) := Int.emod_nonneg _ (by omega)
    have hmlt : rand % (e.maxJitter + 1) < e.maxJitter + 1 :=
      Int.emod_lt_of_pos _ (by omega)
    constructor <;> omega
  · constructor <;> omega

/-- Witness for C7 at a concrete configuration. -/
theorem backoff_next_bounds_witness :
    0 ≤ ExponentialBackoff.Next ⟨2, 100, 2, 5⟩ 3 7 ∧
    ExponentialBackoff.Next ⟨2, 100, 2, 5⟩ 3 7 ≤ 100 + 5 :=
  backoff_next_bounds ⟨2, 100, 2, 5⟩ 3 7 (by decide) (by decide)
    (by norm_num) (by decide)

lemma next_half_at_zero : ExponentialBackoff.Next ⟨8, 100, 1/2, 0⟩ 0 0 = 8 := by
  unfold ExponentialBackoff.Next ExponentialBackoff.cappedDelay
    ExponentialBackoff.baseDelay clampAttempt durOfRat
  norm_num

lemma next_half_at_one : ExponentialBackoff.Next ⟨8, 100, 1/2, 0⟩ 1 0 = 4 := by
  unfold ExponentialBackoff.Next ExponentialBackoff.cappedDelay
    ExponentialBackoff.baseDelay clampAttempt durOfRat
  norm_num

/-- Counterexample to C9 as stated: the configuration
`initialTimeout = 8, maxTimeout = 100, exponentFactor = 1/2, maxJitter = 0`
has all parameters non-negative and jitter disabled, yet `Next` strictly
decreases from attempt 0 (delay 8) to attempt 1 (delay 4), refuting
monotone non-decrease for arbitrary non-negative configurations. -/
theorem backoff_monotone_counterexample :
    ¬ (∀ e : ExponentialBackoff, 0 ≤ e.initialTimeout → 0 ≤ e.maxTimeout →
        0 ≤ e.exponentFactor → e.maxJitter = 0 →
        ∀ a b r : ℤ, a ≤ b → e.Next a r ≤ e.Next b r) := by
  intro h
  have h8 := h ⟨8, 100, 1/2, 0⟩ (by decide) (by decide)
    (show (0:ℚ) ≤ 1/2 by norm_num) rfl 0 1 0 (by decide)
  rw [next_half_at_zero, next_half_at_one] at h8
  exact absurd h8 (by decide)

/-- C9 amended: with jitter disabled (`maxJitter = 0`), non-negative
`initialTimeout` and `exponentFactor ≥ 1` (rather than merely non-negative —
a factor below 1 makes the delay shrink, see the counterexample), `Next` is
monotonically non-decreasing in the attempt, and once it reaches the
`maxTimeout` cap it stays there: it is constant at `maxTimeout`
thereafter. -/
theorem backoff_monotone_of_factor_ge_one (e : ExponentialBackoff)
    (hInit : 0 ≤ e.initialTimeout) (hFactor : 1 ≤ e.exponentFactor)
    (hJ : e.maxJitter = 0) :
    (∀ a b r : ℤ, a ≤ b → e.Next a r ≤ e.Next b r) ∧
    (∀ a b r : ℤ, a ≤ b → e.Next a r = e.maxTimeout →
      e.Next b r = e.maxTimeout) := by
  have hmono : ∀ a b r : ℤ, a ≤ b → e.Next a r ≤ e.Next b r := by
    intro a b r hab
    unfold ExponentialBackoff.Next
    simp only [if_neg (show ¬ (0:ℤ) < e.maxJitter by omega)]
    apply durOfRat_mono
    rw [cappedDelay_eq_min, cappedDelay_eq_min]
    apply min_le_min (le_refl _)
    unfold ExponentialBackoff.baseDelay
    apply mul_le_mul_of_nonneg_left _ (by exact_mod_cast hInit)
    apply pow_le_pow_right₀ hFactor
    apply Int.toNat_le_toNat
    unfold clampAttempt
    split_ifs <;> omega
  have hcap : ∀ a r : ℤ, e.Next a r ≤ e.maxTimeout := by
    intro a r
    unfold ExponentialBackoff.Next
    rw [if_neg (by omega : ¬ (0:ℤ) < e.maxJitter)]
    exact durOfRat_le_int (cappedDelay_le e a)
  refine ⟨hmono, fun a b r hab hat => le_antisymm (hcap b r) ?_⟩
  calc e.maxTimeout = e.Next a r := hat.symm
    _ ≤ e.Next b r := hmono a b r hab

lemma next_two_at_nine : ExponentialBackoff.Next ⟨2, 100, 2, 0⟩ 9 0 = 100 := by
  unfold ExponentialBackoff.Next ExponentialBackoff.cappedDelay
    ExponentialBackoff.baseDelay clampAttempt durOfRat
  rw [show ((if (9:ℤ) < 0 then (0:ℤ) else 9).toNat) = 9 from rfl]
  norm_num

/-- Witness for the amended C9 at a concrete configuration: a monotone step,
and constancy at the cap from attempt 9 (where the delay is 100, the cap) to
attempt 12. -/
theorem backoff_monotone_of_factor_ge_one_witness :
    ExponentialBackoff.Next ⟨2, 100, 2, 0⟩ 1 0 ≤
      ExponentialBackoff.Next ⟨2, 100, 2, 0⟩ 3 0 ∧
    ExponentialBackoff.Next ⟨2, 100, 2, 0⟩ 12 0 = 100 :=
  ⟨(backoff_monotone_of_factor_ge_one ⟨2, 100, 2, 0⟩ (by decide)
      (show (1:ℚ) ≤ 2 by norm_num) rfl).1 1 3 0 (by decide),
   (backoff_monotone_of_factor_ge_one ⟨2, 100, 2, 0⟩ (by decide)
      (show (1:ℚ) ≤ 2 by norm_num) rfl).2 9 12 0 (by decide) next_two_at_nine⟩

/-- C10: when `maxJitter ≤ 0` — including a negative `maxJitter` — the
jitter branch is skipped entirely: `Next` never consults the random source
(so the generator is never invoked, let alone with a non-positive bound,
which would panic) and is a deterministic function of the attempt number;
a negative `maxJitter` behaves exactly like `maxJitter = 0`. -/
theorem backoff_nonpositive_jitter (e : ExponentialBackoff)
    (h : e.maxJitter ≤ 0) (attempt r1 r2 : ℤ) :
    e.Next attempt r1 = e.Next attempt r2 ∧
    e.Next attempt r1 =
      ExponentialBackoff.Next
        ⟨e.initialTimeout, e.maxTimeout, e.exponentFactor, 0⟩ attempt r1 := by
  have h0 : ¬ (0:ℤ) < e.maxJitter := by omega
  have h0' : ¬ (0:ℤ) <
      (ExponentialBackoff.mk e.initialTimeout e.maxTimeout e.exponentFactor
        0).maxJitter := (by omega : ¬ (0:ℤ) < 0)
  unfold ExponentialBackoff.Next
  simp only [if_neg h0, if_neg h0']
  exact ⟨trivial, rfl⟩

/-- Witness for C10: with `maxJitter = -3`, two different random sources give
the same delay, equal to the delay of the `maxJitter = 0` configuration. -/
theorem backoff_nonpositive_jitter_witness :
    ExponentialBackoff.Next ⟨5, 50, 2, -3⟩ 2 7 =
      ExponentialBackoff.Next ⟨5, 50, 2, -3⟩ 2 99 ∧
    ExponentialBackoff.Next ⟨5, 50, 2, -3⟩ 2 7 =
      ExponentialBackoff.Next ⟨5, 50, 2, 0⟩ 2 7 :=
  backoff_nonpositive_jitter ⟨5, 50, 2, -3⟩ (by decide) 2 7 99

/-! ### The second revision of the backoff (overflow clamps)

The repository carries a second revision of the backoff file whose `Next`
adds three guards around the same computation: the cap branch also catches a
NaN or infinite `baseDelay` (vacuous in exact arithmetic, where neither
exists), a negative `baseDelay` is raised to 0 before conversion, and — the
part claim C8 is about — a `delay` that has become negative in the
`float64` → `int64` conversion (`delay := time.Duration(baseDelay)`) is
coerced to `maxTimeout` (`if delay < 0 { delay = e.maxTimeout }`).  The
conversion itself is where the floating-point overflow lives, so it is
modelled as an oracle `conv : ℚ → ℤ` giving the integer the conversion
returns on the (exactly computed) capped base delay — the same technique
used for `rand`, the context and the transport. -/

/-- The capped base delay of the second revision, after its
`if baseDelay < 0 { baseDelay = 0 }` guard.  The cap branch
(`IsNaN || IsInf || baseDelay > maxTimeoutFloat`) coincides with
`cappedDelay` in exact arithmetic, where the NaN/Inf disjuncts are
vacuous. -/
def ExponentialBackoff.cappedDelayV2 (e : ExponentialBackoff)
    (attempt : ℤ) : ℚ :=
  if e.cappedDelay attempt < 0 then 0 else e.cappedDelay attempt

/-- The `delay` value of the second revision after the conversion and its
overflow coercion: `delay := time.Duration(baseDelay)` — modelled by the
conversion oracle `conv` — followed by
`if delay < 0 { delay = e.maxTimeout }`. -/
def ExponentialBackoff.convertedDelay (e : ExponentialBackoff) (attempt : ℤ)
    (conv : ℚ → ℤ) : ℤ :=
  if conv (e.cappedDelayV2 attempt) < 0 then e.maxTimeout
  else conv (e.cappedDelayV2 attempt)

/-- Method `Next` of the second backoff revision: the converted, coerced
delay plus jitter drawn only when `maxJitter > 0`, as in `Next`. -/
def ExponentialBackoff.NextV2 (e : ExponentialBackoff) (attempt rand : ℤ)
    (conv : ℚ → ℤ) : ℤ :=
  if 0 < e.maxJitter then
    e.convertedDelay attempt conv + rand % (e.maxJitter + 1)
  else
    e.convertedDelay attempt conv

/-- C8: in the second backoff revision, whenever the conversion of the base
delay to the duration's integer representation comes out negative (numeric
overflow), the delay is coerced to `maxTimeout`; consequently, for a
non-negative `maxTimeout` cap, `NextV2` is never negative — in
particular never a negative or overflow-zeroed sleep — whatever the
conversion oracle does. -/
theorem backoff_overflow_coerced_to_max (e : ExponentialBackoff)
    (attempt rand : ℤ) (conv : ℚ → ℤ)
    (hMax : 0 ≤ e.maxTimeout) :
    (conv (e.cappedDelayV2 attempt) < 0 →
      e.convertedDelay attempt conv = e.maxTimeout) ∧
    0 ≤ e.NextV2 attempt rand conv := by
  constructor
  · intro h
    unfold ExponentialBackoff.convertedDelay
    rw [if_pos h]
  · have hconv : 0 ≤ e.convertedDelay attempt conv := by
      unfold ExponentialBackoff.convertedDelay
      split_ifs with h
      · exact hMax
      · omega
    unfold ExponentialBackoff.NextV2
    split_ifs with hj
    · have hm0 : 0 ≤ rand % (e.maxJitter + 1) :=
        Int.emod_nonneg _ (by omega)
      omega
    · exact hconv

/-- Witness for C8 at the configuration of the repository's own overflow
test (`initialTimeout = maxTimeout = 2^62`, factor 2, no jitter, attempt
10), with a conversion oracle that wraps to the minimal int64 as the amd64
conversion does: the delay is coerced to `maxTimeout = 2^62` and the
resulting sleep is non-negative. -/
theorem backoff_overflow_coerced_to_max_witness :
    ExponentialBackoff.convertedDelay ⟨2 ^ 62, 2 ^ 62, 2, 0⟩ 10
        (fun _ => -(2 ^ 63)) = 2 ^ 62 ∧
    0 ≤ ExponentialBackoff.NextV2 ⟨2 ^ 62, 2 ^ 62, 2, 0⟩ 10 0
        (fun _ => -(2 ^ 63)) :=
  ⟨(backoff_overflow_coerced_to_max ⟨2 ^ 62, 2 ^ 62, 2, 0⟩ 10 0
      (fun _ => -(2 ^ 63)) (by decide)).1 (by decide),
   (backoff_overflow_coerced_to_max ⟨2 ^ 62, 2 ^ 62, 2, 0⟩ 10 0
      (fun _ => -(2 ^ 63)) (by decide)).2⟩

/-! ## The resilient executor -/

/-- The outcome of one transport call: the `(*http.Response, error)` pair. -/
abbrev Outcome := Option Response × Option GoErr

/-- A request descriptor.  `getBody` is `none` when the Go request's
`GetBody` field is nil; otherwise `some r`, where `r` is the result (a fresh
body stream, or an error) of invoking `GetBody()`.  Body streams are
abstract ids (`ℕ`). -/
structure Request where
  getBody : Option (Except GoErr ℕ)

/-- A request instance handed to the transport: the original request, or a
clone (`req.Clone`) carrying a freshly obtained body stream. -/
inductive SentReq where
  | original : SentReq
  | cloned : ℕ → SentReq
deriving Repr, DecidableEq

/-- Function `cloneRequest`: clone the request and, when a `GetBody` capability is
declared, attach a fresh body obtained from it, propagating a `GetBody`
failure.  When `GetBody` is nil the plain structural clone is returned,
indistinguishable from the original request in this model. -/
def cloneRequest (req : Request) : Except GoErr SentReq :=
  match req.getBody with
  | some (Except.ok b) => Except.ok (SentReq.cloned b)
  | some (Except.error e) => Except.error e
  | none => Except.ok SentReq.original

/-- Function `prepareRequest`: on a retry (`attempt > 0`) of a request that declares a
`GetBody` capability, clone it with a fresh body; otherwise hand the request
over as-is. -/
def prepareRequest (req : Request) (attempt : ℕ) : Except GoErr SentReq :=
  if 0 < attempt ∧ req.getBody.isSome then cloneRequest req
  else Except.ok SentReq.original

/-- The `ResilientClient` configuration: `retryCount` (a Go `int`, so `ℤ`) and
the `Backoff` strategy — a nil-able interface value abstracted to its `Next`
function. -/
structure ResilientClient where
  retryCount : ℤ
  backoff : Option (ℕ → ℤ)

/-- Method `shouldRetry`: no retries when `retryCount <= 0`; a non-nil error is
classified by `isRetryableError`; otherwise a non-nil response by
`isRetryableStatusCode`; otherwise no retry. -/
def ResilientClient.shouldRetry (rc : ResilientClient) (err : Option GoErr)
    (resp : Option Response) : Bool :=
  if rc.retryCount ≤ 0 then false
  else
    match err with
    | some e => isRetryableError (some e)
    | none =>
      match resp with
      | some r => isRetryableStatusCode r.statusCode
      | none => false

/-- Oracle for the cancellation context of a single `Do` call: `errAt k` is
what `req.Context().Err()` returns at the check opening loop iteration `k`
(`none` = context not done yet), and `sleepCancel k` records whether the
`select` inside `sleep` is won by `ctx.Done()` during the wait that follows
attempt `k` (`some e` = cancelled with error `e`).  Real time does not
appear in the model: whether cancellation arrives during a wait is an input. -/
structure Ctx where
  errAt : ℕ → Option GoErr
  sleepCancel : ℕ → Option GoErr

/-- Function `sleep`: wait for duration `d` after attempt `attempt`, racing the
context; returns the context error if cancellation wins, `none` once the
timer fires.  The duration does not influence the observable outcome; the
oracle decides the race. -/
def sleep (ctx : Ctx) (attempt : ℕ) (_d : ℤ) : Option GoErr :=
  ctx.sleepCancel attempt

/-- Method `waitForRetry`: drain and close the previous response body (no
observable effect here) and, when a backoff strategy is configured, compute
`backoff.Next(attempt)` and sleep for it; with a nil backoff the wait is
skipped entirely and cannot be cancelled. -/
def ResilientClient.waitForRetry (rc : ResilientClient) (ctx : Ctx)
    (attempt : ℕ) : Option GoErr :=
  match rc.backoff with
  | some b => sleep ctx attempt (b attempt)
  | none => none

/-- The attempt loop of `Do`, by structural recursion on the number
`remaining` of loop iterations still allowed (`maxAttempts - attempt`), so
the loop terminates by construction.  `transport k` is the outcome of the
k-th call to `rc.client.Do`; attempts are strictly sequential, so the k-th
transport call happens at loop iteration `k`.  Returns the final outcome and
the list of request instances handed to the transport (whose length is the
number of transport calls made). -/
def doLoop (rc : ResilientClient) (req : Request) (transport : ℕ → Outcome)
    (ctx : Ctx) : ℕ → ℕ → Outcome → Outcome × List SentReq
  | _attempt, 0, last => (last, [])
  | attempt, r + 1, _last =>
    match ctx.errAt attempt with
    | some e => ((none, some e), [])
    | none =>
      match prepareRequest req attempt with
      | Except.error e => ((none, some e), [])
      | Except.ok reqToSend =>
        let out := transport attempt
        if rc.shouldRetry out.2 out.1 = false then (out, [reqToSend])
        else if r = 0 then (out, [reqToSend])
        else
          match rc.waitForRetry ctx attempt with
          | some e => ((none, some e), [reqToSend])
          | none =>
            let res := doLoop rc req transport ctx (attempt + 1) r out
            (res.1, reqToSend :: res.2)

/-- Method `Do`: run the attempt loop with `maxAttempts = 1 + rc.retryCount`
iterations allowed, starting at attempt 0 with no last outcome
(`lastResp = nil`, `lastErr = nil`). -/
def ResilientClient.Do (rc : ResilientClient) (req : Request)
    (transport : ℕ → Outcome) (ctx : Ctx) : Outcome × List SentReq :=
  doLoop rc req transport ctx 0 (1 + rc.retryCount).toNat (none, none)

/-! ## Claims C1, C2, C3, C6: the executor -/

/-- As long as `GetBody` (if declared) does not fail, `prepareRequest`
succeeds. -/
lemma prepareRequest_ok (req : Request)
    (hgb : ∀ e : GoErr, req.getBody ≠ some (Except.error e)) (attempt : ℕ) :
    ∃ s, prepareRequest req attempt = Except.ok s := by
  unfold prepareRequest
  split_ifs with h
  · unfold cloneRequest
    cases hr : req.getBody with
    | none => exact ⟨SentReq.original, rfl⟩
    | some r =>
      cases r with
      | ok b => exact ⟨SentReq.cloned b, rfl⟩
      | error e => exact absurd hr (hgb e)
  · exact ⟨SentReq.original, rfl⟩

/-- The attempt loop makes at most `remaining` transport calls. -/
lemma doLoop_length_le (rc : ResilientClient) (req : Request)
    (transport : ℕ → Outcome) (ctx : Ctx) :
    ∀ (r attempt : ℕ) (last : Outcome),
      (doLoop rc req transport ctx attempt r last).2.length ≤ r := by
  intro r
  induction r with
  | zero => intro attempt last; simp [doLoop]
  | succ n ih =>
    intro attempt last
    simp only [doLoop]
    split
    · simp
    · split
      · simp
      · split_ifs
        · simp
        · simp
        · split
          · simp
          · simpa using ih (attempt + 1) (transport attempt)

/-- C1: one call to `Do` invokes the transport at most `1 + retryCount`
times, for every configuration, request, transport behaviour and context
(the loop terminates by construction — `doLoop` is structurally recursive);
and in the concrete scenario `retryCount = 2` with a transport that always
returns status 503, exactly 3 transport calls are made and the final 503
response is returned. -/
theorem do_transport_call_bound :
    (∀ (rc : ResilientClient) (req : Request) (transport : ℕ → Outcome)
        (ctx : Ctx),
      (rc.Do req transport ctx).2.length ≤ (1 + rc.retryCount).toNat) ∧
    (ResilientClient.Do ⟨2, none⟩ ⟨none⟩ (fun _ => (some ⟨503⟩, none))
        ⟨fun _ => none, fun _ => none⟩
      = ((some ⟨503⟩, none),
          [SentReq.original, SentReq.original, SentReq.original])) := by
  constructor
  · intro rc req transport ctx
    exact doLoop_length_le rc req transport ctx (1 + rc.retryCount).toNat 0
      (none, none)
  · decide

/-- If no cancellation occurs, no wait is interrupted, `GetBody` never
fails and the outcomes of attempts `attempt .. attempt + r` are all
retry-worthy, the loop with `r + 1` remaining iterations runs them all and
returns the outcome of the last transport call. -/
lemma doLoop_all_retry (rc : ResilientClient) (req : Request)
    (transport : ℕ → Outcome) (ctx : Ctx)
    (hctx : ∀ k, ctx.errAt k = none)
    (hsleep : ∀ k, rc.waitForRetry ctx k = none)
    (hgb : ∀ e : GoErr, req.getBody ≠ some (Except.error e)) :
    ∀ (r attempt : ℕ) (last : Outcome),
      (∀ k, attempt ≤ k → k ≤ attempt + r →
        rc.shouldRetry (transport k).2 (transport k).1 = true) →
      (doLoop rc req transport ctx attempt (r + 1) last).1
          = transport (attempt + r) ∧
      (doLoop rc req transport ctx attempt (r + 1) last).2.length = r + 1 := by
  intro r
  induction r with
  | zero =>
    intro attempt last hall
    obtain ⟨s, hs⟩ := prepareRequest_ok req hgb attempt
    have hr := hall attempt (le_refl _) (by omega)
    simp only [doLoop, hctx attempt, hs]
    rw [if_neg (by simp [hr])]
    simp
  | succ n ih =>
    intro attempt last hall
    obtain ⟨s, hs⟩ := prepareRequest_ok req hgb attempt
    have hr := hall attempt (le_refl _) (by omega)
    have hrec := ih (attempt + 1) (transport attempt)
      (fun k hk1 hk2 => hall k (by omega) (by omega))
    generalize hm : n + 1 = m at hrec ⊢
    have hm0 : m ≠ 0 := by omega
    simp only [doLoop, hctx attempt, hs, hsleep attempt]
    rw [if_neg (by simp [hr]), if_neg hm0]
    simp only [List.length_cons]
    constructor
    · rw [hrec.1]
      congr 1
      omega
    · rw [hrec.2]

/-- C2: when at least one retry is configured, no cancellation fires, the
request body is reproducible, and every attempt up to and including the last
allowed one produces a retry-worthy outcome, `Do` falls out of the loop and
returns the actual response/error pair of the final transport call — never a
synthetic "retries exhausted" error — having made exactly `1 + retryCount`
transport calls. -/
theorem do_exhausted_returns_last_outcome (rc : ResilientClient)
    (req : Request) (transport : ℕ → Outcome) (ctx : Ctx)
    (hretry : 1 ≤ rc.retryCount)
    (hctx : ∀ k, ctx.errAt k = none)
    (hsleep : ∀ k, rc.waitForRetry ctx k = none)
    (hgb : ∀ e : GoErr, req.getBody ≠ some (Except.error e))
    (hall : ∀ k, k < (1 + rc.retryCount).toNat →
      rc.shouldRetry (transport k).2 (transport k).1 = true) :
    (rc.Do req transport ctx).1 = transport ((1 + rc.retryCount).toNat - 1) ∧
    (rc.Do req transport ctx).2.length = (1 + rc.retryCount).toNat := by
  obtain ⟨r, hr⟩ : ∃ r, (1 + rc.retryCount).toNat = r + 1 :=
    ⟨(1 + rc.retryCount).toNat - 1, by omega⟩
  have key := doLoop_all_retry rc req transport ctx hctx hsleep hgb r 0
    (none, none) (fun k hk1 hk2 => hall k (by omega))
  unfold ResilientClient.Do
  rw [hr]
  constructor
  · rw [key.1]
    congr 1
    omega
  · rw [key.2]

/-- Witness for C2: `retryCount = 1`, transport always 503 — `Do` returns
the 503 outcome of the second (final) call after exactly 2 calls. -/
theorem do_exhausted_returns_last_outcome_witness :
    (ResilientClient.Do ⟨1, none⟩ ⟨none⟩ (fun _ => (some ⟨503⟩, none))
        ⟨fun _ => none, fun _ => none⟩).1 = (some ⟨503⟩, none) ∧
    (ResilientClient.Do ⟨1, none⟩ ⟨none⟩ (fun _ => (some ⟨503⟩, none))
        ⟨fun _ => none, fun _ => none⟩).2.length = 2 := by
  have h := do_exhausted_returns_last_outcome ⟨1, none⟩ ⟨none⟩
    (fun _ => (some ⟨503⟩, none)) ⟨fun _ => none, fun _ => none⟩
    (by decide) (fun k => rfl) (fun k => rfl)
    (fun e he => Option.noConfusion he)
    (fun k hk =>
      (by decide : ResilientClient.shouldRetry ⟨1, none⟩ none
          (some (Response.mk 503)) = true))
  exact ⟨h.1, h.2.trans (by decide)⟩

/-- One clean loop iteration: no cancellation at its entry, a retry-worthy
outcome, an uninterrupted wait, and a further iteration to go — the loop
proceeds to the next attempt, contributing one transport call. -/
lemma doLoop_step (rc : ResilientClient) (req : Request)
    (transport : ℕ → Outcome) (ctx : Ctx) (attempt r : ℕ) (last : Outcome)
    (h1 : ctx.errAt attempt = none)
    (h2 : rc.waitForRetry ctx attempt = none)
    (h3 : rc.shouldRetry (transport attempt).2 (transport attempt).1 = true)
    (hgb : ∀ e : GoErr, req.getBody ≠ some (Except.error e))
    (hr : r ≠ 0) :
    (doLoop rc req transport ctx attempt (r + 1) last).1
        = (doLoop rc req transport ctx (attempt + 1) r (transport attempt)).1 ∧
    (doLoop rc req transport ctx attempt (r + 1) last).2.length
        = (doLoop rc req transport ctx (attempt + 1) r
            (transport attempt)).2.length + 1 := by
  obtain ⟨s, hs⟩ := prepareRequest_ok req hgb attempt
  simp only [doLoop, h1, hs, h2]
  rw [if_neg (by simp [h3]), if_neg hr]
  simp

/-- If iterations `attempt .. attempt+k-1` run cleanly (no cancellation,
retry-worthy outcomes, uninterrupted waits) and the context is done at the
check opening iteration `attempt+k`, the loop stops there with the context
error and exactly `k` transport calls. -/
lemma doLoop_cancel_at (rc : ResilientClient) (req : Request)
    (transport : ℕ → Outcome) (ctx : Ctx) (e : GoErr)
    (hgb : ∀ e' : GoErr, req.getBody ≠ some (Except.error e')) :
    ∀ (k attempt r : ℕ) (last : Outcome),
      (∀ j, j < k → ctx.errAt (attempt + j) = none) →
      (∀ j, j < k → rc.waitForRetry ctx (attempt + j) = none) →
      (∀ j, j < k → rc.shouldRetry (transport (attempt + j)).2
          (transport (attempt + j)).1 = true) →
      ctx.errAt (attempt + k) = some e →
      k < r →
      (doLoop rc req transport ctx attempt r last).1 = (none, some e) ∧
      (doLoop rc req transport ctx attempt r last).2.length = k := by
  intro k
  induction k with
  | zero =>
    intro attempt r last _ _ _ hke hkr
    obtain ⟨r', rfl⟩ : ∃ r', r = r' + 1 := ⟨r - 1, by omega⟩
    rw [Nat.add_zero] at hke
    simp [doLoop, hke]
  | succ n ih =>
    intro attempt r last hc hw hs hke hkr
    obtain ⟨r', rfl⟩ : ∃ r', r = r' + 1 := ⟨r - 1, by omega⟩
    have hstep := doLoop_step rc req transport ctx attempt r' last
      (by simpa using hc 0 (by omega)) (by simpa using hw 0 (by omega))
      (by simpa using hs 0 (by omega)) hgb (by omega)
    have hrec := ih (attempt + 1) r' (transport attempt)
      (fun j hj => by
        have h := hc (j + 1) (by omega)
        rwa [show attempt + (j + 1) = attempt + 1 + j by omega] at h)
      (fun j hj => by
        have h := hw (j + 1) (by omega)
        rwa [show attempt + (j + 1) = attempt + 1 + j by omega] at h)
      (fun j hj => by
        have h := hs (j + 1) (by omega)
        rwa [show attempt + (j + 1) = attempt + 1 + j by omega] at h)
      (by rwa [show attempt + 1 + n = attempt + (n + 1) by omega])
      (by omega)
    refine ⟨hstep.1.trans hrec.1, ?_⟩
    rw [hstep.2, hrec.2]

/-- If iterations `attempt .. attempt+k` run their transport calls with
retry-worthy outcomes and no cancellation at their entry, the first `k`
waits are uninterrupted, and the wait following attempt `attempt+k` is won
by cancellation (with the break for the last allowed attempt not yet
reached), the loop stops with the context error after exactly `k+1`
transport calls. -/
lemma doLoop_sleep_cancel (rc : ResilientClient) (req : Request)
    (transport : ℕ → Outcome) (ctx : Ctx) (e : GoErr)
    (hgb : ∀ e' : GoErr, req.getBody ≠ some (Except.error e')) :
    ∀ (k attempt r : ℕ) (last : Outcome),
      (∀ j, j ≤ k → ctx.errAt (attempt + j) = none) →
      (∀ j, j < k → rc.waitForRetry ctx (attempt + j) = none) →
      (∀ j, j ≤ k → rc.shouldRetry (transport (attempt + j)).2
          (transport (attempt + j)).1 = true) →
      rc.waitForRetry ctx (attempt + k) = some e →
      k + 1 < r →
      (doLoop rc req transport ctx attempt r last).1 = (none, some e) ∧
      (doLoop rc req transport ctx attempt r last).2.length = k + 1 := by
  intro k
  induction k with
  | zero =>
    intro attempt r last hc _ hs hke hkr
    obtain ⟨r', rfl⟩ : ∃ r', r = r' + 1 := ⟨r - 1, by omega⟩
    obtain ⟨s, hss⟩ := prepareRequest_ok req hgb attempt
    have hc0 : ctx.errAt attempt = none := by simpa using hc 0 (le_refl 0)
    have hs0 : rc.shouldRetry (transport attempt).2 (transport attempt).1
        = true := by simpa using hs 0 (le_refl 0)
    have hw0 : rc.waitForRetry ctx attempt = some e := by simpa using hke
    simp only [doLoop, hc0, hss, hw0]
    rw [if_neg (by simp [hs0]), if_neg (by omega : ¬ r' = 0)]
    simp
  | succ n ih =>
    intro attempt r last hc hw hs hke hkr
    obtain ⟨r', rfl⟩ : ∃ r', r = r' + 1 := ⟨r - 1, by omega⟩
    have hstep := doLoop_step rc req transport ctx attempt r' last
      (by simpa using hc 0 (by omega)) (by simpa using hw 0 (by omega))
      (by simpa using hs 0 (by omega)) hgb (by omega)
    have hrec := ih (attempt + 1) r' (transport attempt)
      (fun j hj => by
        have h := hc (j + 1) (by omega)
        rwa [show attempt + (j + 1) = attempt + 1 + j by omega] at h)
      (fun j hj => by
        have h := hw (j + 1) (by omega)
        rwa [show attempt + (j + 1) = attempt + 1 + j by omega] at h)
      (fun j hj => by
        have h := hs (j + 1) (by omega)
        rwa [show attempt + (j + 1) = attempt + 1 + j by omega] at h)
      (by rwa [show attempt + 1 + n = attempt + (n + 1) by omega])
      (by omega)
    refine ⟨hstep.1.trans hrec.1, ?_⟩
    rw [hstep.2, hrec.2]

/-- C3: cancellation always wins.  (a) If the context is already done at the
check opening the first iteration, `Do` returns the context error with zero
transport calls.  (b) If the loop runs cleanly up to the check opening
iteration `k` and the context is done there, `Do` returns the context error
having made exactly `k` transport calls — none after the cancellation.
(c) If cancellation wins the race during the inter-attempt wait following
attempt `k`, `Do` returns the context error having made exactly `k + 1`
transport calls — none after the cancellation. -/
theorem do_cancellation_wins (rc : ResilientClient) (req : Request)
    (transport : ℕ → Outcome) (ctx : Ctx) (e : GoErr)
    (hrc : 0 ≤ rc.retryCount)
    (hgb : ∀ e' : GoErr, req.getBody ≠ some (Except.error e')) :
    (ctx.errAt 0 = some e → rc.Do req transport ctx = ((none, some e), [])) ∧
    (∀ k, (∀ j, j < k → ctx.errAt j = none) →
      (∀ j, j < k → rc.waitForRetry ctx j = none) →
      (∀ j, j < k → rc.shouldRetry (transport j).2 (transport j).1 = true) →
      ctx.errAt k = some e → k < (1 + rc.retryCount).toNat →
      (rc.Do req transport ctx).1 = (none, some e) ∧
      (rc.Do req transport ctx).2.length = k) ∧
    (∀ k, (∀ j, j ≤ k → ctx.errAt j = none) →
      (∀ j, j < k → rc.waitForRetry ctx j = none) →
      (∀ j, j ≤ k → rc.shouldRetry (transport j).2 (transport j).1 = true) →
      rc.waitForRetry ctx k = some e → k + 1 < (1 + rc.retryCount).toNat →
      (rc.Do req transport ctx).1 = (none, some e) ∧
      (rc.Do req transport ctx).2.length = k + 1) := by
  refine ⟨?_, ?_, ?_⟩
  · intro h0
    obtain ⟨r', hr'⟩ : ∃ r', (1 + rc.retryCount).toNat = r' + 1 :=
      ⟨(1 + rc.retryCount).toNat - 1, by omega⟩
    unfold ResilientClient.Do
    rw [hr']
    simp [doLoop, h0]
  · intro k hc hw hs hke hkr
    exact doLoop_cancel_at rc req transport ctx e hgb k 0
      (1 + rc.retryCount).toNat (none, none)
      (fun j hj => by simpa using hc j hj)
      (fun j hj => by simpa using hw j hj)
      (fun j hj => by simpa using hs j hj)
      (by simpa using hke) hkr
  · intro k hc hw hs hke hkr
    exact doLoop_sleep_cancel rc req transport ctx e hgb k 0
      (1 + rc.retryCount).toNat (none, none)
      (fun j hj => by simpa using hc j hj)
      (fun j hj => by simpa using hw j hj)
      (fun j hj => by simpa using hs j hj)
      (by simpa using hke) hkr

/-- A caller-cancellation error, used as a concrete witness input. -/
def eCancel : GoErr := ⟨true, false, none, false, false, false, false, none⟩

/-- Witness for C3: `retryCount = 2` with a backoff configured.
(a) A context that is done from the start: `Do` returns the cancellation
error with zero transport calls.  (b) A context that becomes done at the
check opening iteration 1: one transport call, the cancellation error.
(c) A context whose cancellation wins the wait after attempt 0: one
transport call, the cancellation error. -/
theorem do_cancellation_wins_witness :
    (ResilientClient.Do ⟨2, some fun _ => 5⟩ ⟨none⟩
        (fun _ => (some ⟨503⟩, none)) ⟨fun _ => some eCancel, fun _ => none⟩
      = ((none, some eCancel), [])) ∧
    ((ResilientClient.Do ⟨2, some fun _ => 5⟩ ⟨none⟩
        (fun _ => (some ⟨503⟩, none))
        ⟨fun j => if j = 0 then none else some eCancel, fun _ => none⟩).1
          = (none, some eCancel) ∧
      (ResilientClient.Do ⟨2, some fun _ => 5⟩ ⟨none⟩
        (fun _ => (some ⟨503⟩, none))
        ⟨fun j => if j = 0 then none else some eCancel,
          fun _ => none⟩).2.length = 1) ∧
    ((ResilientClient.Do ⟨2, some fun _ => 5⟩ ⟨none⟩
        (fun _ => (some ⟨503⟩, none))
        ⟨fun _ => none, fun j => if j = 0 then some eCancel else none⟩).1
          = (none, some eCancel) ∧
      (ResilientClient.Do ⟨2, some fun _ => 5⟩ ⟨none⟩
        (fun _ => (some ⟨503⟩, none))
        ⟨fun _ => none,
          fun j => if j = 0 then some eCancel else none⟩).2.length = 1) := by
  refine ⟨?_, ?_, ?_⟩
  · exact (do_cancellation_wins ⟨2, some fun _ => 5⟩ ⟨none⟩
      (fun _ => (some ⟨503⟩, none)) ⟨fun _ => some eCancel, fun _ => none⟩
      eCancel (by decide) (fun e' he' => Option.noConfusion he')).1 rfl
  · exact (do_cancellation_wins ⟨2, some fun _ => 5⟩ ⟨none⟩
      (fun _ => (some ⟨503⟩, none))
      ⟨fun j => if j = 0 then none else some eCancel, fun _ => none⟩
      eCancel (by decide) (fun e' he' => Option.noConfusion he')).2.1 1
      (fun j hj => by obtain rfl : j = 0 := Nat.lt_one_iff.mp hj; rfl)
      (fun j hj => by obtain rfl : j = 0 := Nat.lt_one_iff.mp hj; rfl)
      (fun j hj =>
        (by decide : ResilientClient.shouldRetry ⟨2, some fun _ => 5⟩ none
          (some (Response.mk 503)) = true))
      rfl (by decide)
  · exact (do_cancellation_wins ⟨2, some fun _ => 5⟩ ⟨none⟩
      (fun _ => (some ⟨503⟩, none))
      ⟨fun _ => none, fun j => if j = 0 then some eCancel else none⟩
      eCancel (by decide) (fun e' he' => Option.noConfusion he')).2.2 0
      (fun j hj => rfl)
      (fun j hj => by omega)
      (fun j hj =>
        (by decide : ResilientClient.shouldRetry ⟨2, some fun _ => 5⟩ none
          (some (Response.mk 503)) = true))
      rfl (by decide)

/-- C6: request re-submission policy.
(a) On attempt 0 the original request instance is handed over as-is.
(b) On any attempt > 0 of a request declaring a `GetBody` capability that
yields body `b`, a clone carrying the freshly obtained body `b` is used.
(c) With no `GetBody` capability, the same original instance is reused on
every attempt, without cloning.
(d) If `GetBody` fails with error `e` when the first retry is prepared, `Do`
returns exactly that error at once: one transport call was made (the
original attempt) and none follow. -/
theorem prepare_request_policy :
    (∀ req : Request, prepareRequest req 0 = Except.ok SentReq.original) ∧
    (∀ (req : Request) (b : ℕ) (attempt : ℕ), 0 < attempt →
      req.getBody = some (Except.ok b) →
      prepareRequest req attempt = Except.ok (SentReq.cloned b)) ∧
    (∀ (req : Request) (attempt : ℕ), req.getBody = none →
      prepareRequest req attempt = Except.ok SentReq.original) ∧
    (∀ (rc : ResilientClient) (req : Request) (transport : ℕ → Outcome)
        (ctx : Ctx) (e : GoErr),
      1 ≤ rc.retryCount →
      ctx.errAt 0 = none → ctx.errAt 1 = none →
      rc.waitForRetry ctx 0 = none →
      rc.shouldRetry (transport 0).2 (transport 0).1 = true →
      req.getBody = some (Except.error e) →
      rc.Do req transport ctx = ((none, some e), [SentReq.original])) := by
  refine ⟨?_, ?_, ?_, ?_⟩
  · intro req
    unfold prepareRequest
    rw [if_neg (by simp)]
  · intro req b attempt ha hb
    unfold prepareRequest cloneRequest
    rw [if_pos ⟨ha, by rw [hb]; rfl⟩, hb]
  · intro req attempt hb
    unfold prepareRequest cloneRequest
    rw [hb]
    split_ifs <;> rfl
  · intro rc req transport ctx e hretry h0 h1 hw hsr hgbe
    obtain ⟨k, hk⟩ : ∃ k, (1 + rc.retryCount).toNat = k + 2 :=
      ⟨(1 + rc.retryCount).toNat - 2, by omega⟩
    have hp0 : prepareRequest req 0 = Except.ok SentReq.original := by
      unfold prepareRequest
      rw [if_neg (by simp)]
    have hp1 : prepareRequest req 1 = Except.error e := by
      unfold prepareRequest cloneRequest
      rw [if_pos ⟨Nat.one_pos, by rw [hgbe]; rfl⟩, hgbe]
    unfold ResilientClient.Do
    rw [hk]
    simp only [doLoop, h0, h1, hp0, hp1, hw]
    rw [if_neg (by simp [hsr]), if_neg (show ¬ k + 1 = 0 by omega)]

/-- Witness for C6 at concrete inputs: attempt 0 hands over the original; a
retry of a request with body 7 sends a clone with body 7; a body-less
request is reused as-is on attempt 3; and a `Do` run (`retryCount = 1`,
first outcome 503) whose `GetBody` fails with `eCancel` returns exactly that
error after the single original-attempt transport call. -/
theorem prepare_request_policy_witness :
    prepareRequest ⟨some (Except.ok 7)⟩ 0 = Except.ok SentReq.original ∧
    prepareRequest ⟨some (Except.ok 7)⟩ 2 = Except.ok (SentReq.cloned 7) ∧
    prepareRequest ⟨none⟩ 3 = Except.ok SentReq.original ∧
    ResilientClient.Do ⟨1, none⟩ ⟨some (Except.error eCancel)⟩
        (fun _ => (some ⟨503⟩, none)) ⟨fun _ => none, fun _ => none⟩
      = ((none, some eCancel), [SentReq.original]) :=
  ⟨prepare_request_policy.1 ⟨some (Except.ok 7)⟩,
   prepare_request_policy.2.1 ⟨some (Except.ok 7)⟩ 7 2 (by decide) rfl,
   prepare_request_policy.2.2.1 ⟨none⟩ 3 rfl,
   prepare_request_policy.2.2.2 ⟨1, none⟩ ⟨some (Except.error eCancel)⟩
     (fun _ => (some ⟨503⟩, none)) ⟨fun _ => none, fun _ => none⟩ eCancel
     (by decide) rfl rfl rfl
     (by decide :
       ResilientClient.shouldRetry ⟨1, none⟩ none (some (Response.mk 503))
         = true)
     rfl⟩

end Drift
